import Mathlib

/-!
Shallow embedding of `src/transfom.py`.

The program reads lines from standard input until an empty line or
end-of-input, escapes backslashes and double quotes in each collected
line, and prints each escaped line as a quoted string-literal fragment
followed by a terminating `""` fragment.

A line of text is modelled as `List Char`; the standard-input stream is
modelled as the finite list of lines available before exhaustion
(`input()` raising `EOFError` corresponds to reaching the end of the
list).
-/

namespace Transfom

/-- Fuel-driven worker for `pyReplace`.  Scans the text left to right;
whenever the (nonempty) pattern matches at the current position the
replacement is emitted and the matched characters are skipped, otherwise
the current character is copied verbatim.  The fuel only bounds the
recursion; `pyReplace` supplies enough fuel that it never runs out for a
nonempty pattern. -/
def pyReplaceAux (pat rep : List Char) : Nat → List Char → List Char
  | _, [] => []
  | 0, s => s
  | fuel + 1, c :: rest =>
    if pat.isPrefixOf (c :: rest) then
      rep ++ pyReplaceAux pat rep fuel ((c :: rest).drop pat.length)
    else
      c :: pyReplaceAux pat rep fuel rest

/-- Embedding of Python `s.replace(pat, rep)` for a nonempty pattern:
replace every non-overlapping occurrence of `pat` in `s` by `rep`,
scanning left to right. -/
def pyReplace (pat rep s : List Char) : List Char :=
  pyReplaceAux pat rep s.length s

/-- Embedding of the escaping transform at line 15 of `transfom.py`:
`line.replace("\\", "\\\\").replace('"', '\\"')` — first double every
backslash, then put a backslash before every double quote. -/
def escape (line : List Char) : List Char :=
  pyReplace ['\"'] ['\\', '\"'] (pyReplace ['\\'] ['\\', '\\'] line)

/-- Embedding of the collection loop at lines 4–12 of `transfom.py`:
read lines until the stream is exhausted or an empty line arrives; the
terminating empty line is discarded, all earlier lines are kept in
order. -/
def collect : List (List Char) → List (List Char)
  | [] => []
  | l :: rest => if l = [] then [] else l :: collect rest

/-- Embedding of the list comprehension at line 15 of `transfom.py`:
escape every collected line, preserving order. -/
def escapedLines (lines : List (List Char)) : List (List Char) :=
  lines.map escape

/-- One content output line, from `print(f'"{l}\n" +')` at line 20:
a double quote, the escaped content, a literal backslash and `n`, a
closing double quote, a space and a plus sign. -/
def fragment (l : List Char) : List Char :=
  '\"' :: (l ++ ['\\', 'n', '\"', ' ', '+'])

/-- The terminating `""` line printed at line 21. -/
def terminator : List Char := ['\"', '\"']

/-- The formatted output after the header: one fragment per escaped
line followed by the terminator (lines 19–21 of `transfom.py`). -/
def formatLines (escaped : List (List Char)) : List (List Char) :=
  escaped.map fragment ++ [terminator]

/-- The prompt printed at line 2 of `transfom.py`. -/
def promptLine : List Char := "请输入字符画，输入空行结束：".data

/-- The header text printed at line 18 of `transfom.py`; the
surrounding `\n` characters of `print("\n转义后的字符画：\n")` yield one
empty output line before it and one after it. -/
def headerLine : List Char := "转义后的字符画：".data

/-- The complete standard output of `main` on a given input stream, as
a list of output lines. -/
def programOutput (stdin : List (List Char)) : List (List Char) :=
  [promptLine] ++ [[], headerLine, []] ++ formatLines (escapedLines (collect stdin))

/-- Character-level expansion: replace the single character `p` by
`rep` and leave every other character alone. -/
def charExpand (p : Char) (rep : List Char) : List Char → List Char
  | [] => []
  | c :: rest => (if c = p then rep else [c]) ++ charExpand p rep rest

/-- Per-character specification of the escaping transform: a backslash
becomes two backslashes, a double quote becomes backslash–quote, any
other character is unchanged. -/
def escChar (c : Char) : List Char :=
  if c = '\\' then ['\\', '\\']
  else if c = '\"' then ['\\', '\"']
  else [c]

/-- Character-by-character form of the escaping transform. -/
def escapeChars : List Char → List Char
  | [] => []
  | c :: rest => escChar c ++ escapeChars rest

theorem pyReplaceAux_single (p : Char) (rep : List Char) :
    ∀ fuel s, s.length ≤ fuel → pyReplaceAux [p] rep fuel s = charExpand p rep s := by
  intro fuel
  induction fuel with
  | zero =>
    intro s hs
    match s with
    | [] => rfl
  | succ f ih =>
    intro s hs
    match s with
    | [] => rfl
    | c :: rest =>
      simp only [pyReplaceAux, List.isPrefixOf, List.drop, charExpand]
      by_cases hc : c = p
      · simp [hc, ih rest (by simpa using Nat.le_of_succ_le_succ hs)]
      · have : (p == c) = false := by
          simp [beq_iff_eq]
          exact fun h => hc h.symm
        simp [this, hc, ih rest (by simpa using Nat.le_of_succ_le_succ hs)]

theorem pyReplace_single (p : Char) (rep : List Char) (s : List Char) :
    pyReplace [p] rep s = charExpand p rep s :=
  pyReplaceAux_single p rep s.length s (Nat.le_refl _)

theorem charExpand_append (p : Char) (rep : List Char) (a b : List Char) :
    charExpand p rep (a ++ b) = charExpand p rep a ++ charExpand p rep b := by
  induction a with
  | nil => rfl
  | cons c rest ih => simp [charExpand, ih]

theorem escape_eq_escapeChars (l : List Char) : escape l = escapeChars l := by
  unfold escape
  rw [pyReplace_single, pyReplace_single]
  induction l with
  | nil => rfl
  | cons c rest ih =>
    simp only [charExpand, escapeChars, charExpand_append, ih, escChar]
    by_cases hb : c = '\\'
    · simp [hb, charExpand]
    · by_cases hq : c = '\"'
      · simp [hb, hq, charExpand]
      · simp [hb, hq, charExpand]

/-- Left inverse of the escaping transform on escaped text: a backslash
absorbs the following character, anything else passes through. -/
def unescapeChars : List Char → List Char
  | [] => []
  | c :: rest =>
    if c = '\\' then
      match rest with
      | [] => [c]
      | d :: rest2 => d :: unescapeChars rest2
    else c :: unescapeChars rest

theorem unescapeChars_cons_of_ne (c : Char) (rest : List Char) (h : c ≠ '\\') :
    unescapeChars (c :: rest) = c :: unescapeChars rest := by
  rw [unescapeChars.eq_def]
  simp [h]

theorem unescape_escapeChars (l : List Char) :
    unescapeChars (escapeChars l) = l := by
  induction l with
  | nil => rfl
  | cons c rest ih =>
    by_cases hb : c = '\\'
    · simp [escapeChars, escChar, hb, unescapeChars, ih]
    · by_cases hq : c = '\"'
      · simp [escapeChars, escChar, hb, hq, unescapeChars, ih]
      · simp [escapeChars, escChar, hb, hq, unescapeChars_cons_of_ne c _ hb, ih]

theorem escapeChars_id :
    ∀ line : List Char, (∀ c ∈ line, c ≠ '\\' ∧ c ≠ '\"') →
      escapeChars line = line := by
  intro line
  induction line with
  | nil => intro _; rfl
  | cons c rest ih =>
    intro h
    have hc := h c (List.mem_cons_self c rest)
    have hrest : ∀ d ∈ rest, d ≠ '\\' ∧ d ≠ '\"' :=
      fun d hd => h d (List.mem_cons_of_mem c hd)
    simp [escapeChars, escChar, hc.1, hc.2, ih hrest]

/-- Claim C1: the escaping transform first doubles every backslash and
then puts a backslash before every double quote, in that order —
character by character, a backslash becomes two backslashes and a
double quote becomes backslash–quote; in particular the two-character
line backslash–quote escapes to backslash, backslash, backslash,
quote. -/
theorem c1_escape_order :
    (∀ l, escape l = pyReplace ['\"'] ['\\', '\"'] (pyReplace ['\\'] ['\\', '\\'] l)) ∧
    (∀ l, escape l = escapeChars l) ∧
    escape ['\\', '\"'] = ['\\', '\\', '\\', '\"'] :=
  ⟨fun _ => rfl, escape_eq_escapeChars, by decide⟩

/-- Claim C2: feeding a sequence of non-empty lines followed by an
empty line to the collector yields exactly that sequence, in order;
the terminating empty line is discarded. -/
theorem c2_collect_terminated :
    ∀ L : List (List Char), [] ∉ L → collect (L ++ [[]]) = L := by
  intro L
  induction L with
  | nil => intro _; simp [collect]
  | cons l rest ih =>
    intro h
    have hl : l ≠ [] := fun he => h (by simp [he])
    have hr : [] ∉ rest := fun hm => h (List.mem_cons_of_mem l hm)
    simp [collect, hl, ih hr]

/-- Witness for C2 at the concrete stream `A`, `B`, empty line. -/
theorem c2_collect_terminated_witness :
    ([] ∉ [['A'], ['B']]) ∧ collect ([['A'], ['B']] ++ [[]]) = [['A'], ['B']] :=
  ⟨by decide, c2_collect_terminated [['A'], ['B']] (by decide)⟩

/-- Claim C3: when the input stream is exhausted before any empty line
arrives, collection ends normally with exactly the lines read, and the
program goes on to format them after the prompt and header. -/
theorem c3_collect_exhausted :
    ∀ L : List (List Char), [] ∉ L →
      collect L = L ∧
      programOutput L = [promptLine, [], headerLine, []] ++ formatLines (escapedLines L) := by
  intro L
  have key : ∀ M : List (List Char), [] ∉ M → collect M = M := by
    intro M
    induction M with
    | nil => intro _; rfl
    | cons l rest ih =>
      intro h
      have hl : l ≠ [] := fun he => h (by simp [he])
      have hr : [] ∉ rest := fun hm => h (List.mem_cons_of_mem l hm)
      simp [collect, hl, ih hr]
  intro h
  refine ⟨key L h, ?_⟩
  simp [programOutput, key L h]

/-- Witness for C3 at the concrete exhausted stream `X`, `Y`. -/
theorem c3_collect_exhausted_witness :
    ([] ∉ [['X'], ['Y']]) ∧
    collect [['X'], ['Y']] = [['X'], ['Y']] ∧
    programOutput [['X'], ['Y']] =
      [promptLine, [], headerLine, []] ++ formatLines (escapedLines [['X'], ['Y']]) :=
  ⟨by decide, c3_collect_exhausted [['X'], ['Y']] (by decide)⟩

/-- Claim C4: for a buffer of N lines the formatter emits N + 1 lines
after the header — the i-th is a double quote, the i-th escaped line,
a literal backslash and n, a closing quote, a space and a plus sign,
and the last is the two-quote terminator. -/
theorem c4_format_shape (buffer : List (List Char)) :
    (formatLines (escapedLines buffer)).length = buffer.length + 1 ∧
    (∀ i, i < buffer.length →
      (formatLines (escapedLines buffer))[i]? =
        (buffer[i]?).map (fun l => '\"' :: (escape l ++ ['\\', 'n', '\"', ' ', '+']))) ∧
    (formatLines (escapedLines buffer))[buffer.length]? = some ['\"', '\"'] := by
  refine ⟨by simp [formatLines, escapedLines], ?_, ?_⟩
  · intro i hi
    rw [formatLines, List.getElem?_append_left (by simpa [escapedLines] using hi)]
    simp [escapedLines, List.getElem?_map, fragment]
    cases buffer[i]? with
    | none => rfl
    | some l => rfl
  · rw [formatLines, List.getElem?_append_right (by simp [escapedLines])]
    simp [escapedLines, terminator]

/-- Witness for C4 at the concrete buffer `A`, `B`, index 1. -/
theorem c4_format_shape_witness :
    (formatLines (escapedLines [['A'], ['B']]))[1]? =
      (([['A'], ['B']] : List (List Char))[1]?).map
        (fun l => '\"' :: (escape l ++ ['\\', 'n', '\"', ' ', '+'])) :=
  (c4_format_shape [['A'], ['B']]).2.1 1 (by decide)

/-- Claim C5: escaping the buffer produces exactly as many lines as
were collected, and the i-th escaped line is the escape of the i-th
raw line. -/
theorem c5_escaped_count_order (lines : List (List Char)) :
    (escapedLines lines).length = lines.length ∧
    ∀ i : Nat, (escapedLines lines)[i]? = (lines[i]?).map escape := by
  refine ⟨by simp [escapedLines], fun i => ?_⟩
  simp [escapedLines, List.getElem?_map]

/-- Claim C6: escaping is not idempotent — a line holding a single
backslash escapes to two backslashes and, escaped again, to four. -/
theorem c6_escape_not_idempotent :
    ∃ line : List Char, escape (escape line) ≠ escape line :=
  ⟨['\\'], by decide⟩

/-- Claim C7: the program is a total function of its input stream —
two runs on the same stream print the same standard output, and every
run produces a result. -/
theorem c7_deterministic (s t : List (List Char)) (h : s = t) :
    programOutput s = programOutput t ∧
    ∃ out : List (List Char), programOutput s = out :=
  ⟨by rw [h], ⟨programOutput s, rfl⟩⟩

/-- Witness for C7 at the concrete stream `A`, empty line. -/
theorem c7_deterministic_witness :
    programOutput [['A'], []] = programOutput [['A'], []] ∧
    ∃ out : List (List Char), programOutput [['A'], []] = out :=
  c7_deterministic [['A'], []] [['A'], []] rfl

/-- Claim C8: the collected buffer never holds the empty string —
collection stops at the first empty line, so every buffered line is
non-empty. -/
theorem c8_no_empty_line (stdin : List (List Char)) :
    (collect stdin).all (fun l => !l.isEmpty) = true := by
  induction stdin with
  | nil => rfl
  | cons l rest ih =>
    by_cases hl : l = []
    · simp [collect, hl]
    · simp [collect, hl, ih, List.isEmpty_iff]

/-- Claim C9: the escaping transform leaves a line unchanged when the
line holds neither a backslash nor a double quote. -/
theorem c9_escape_identity (line : List Char)
    (h : ∀ c ∈ line, c ≠ '\\' ∧ c ≠ '\"') : escape line = line := by
  rw [escape_eq_escapeChars]
  exact escapeChars_id line h

/-- Witness for C9 at the concrete line `AB`. -/
theorem c9_escape_identity_witness :
    (∀ c ∈ (['A', 'B'] : List Char), c ≠ '\\' ∧ c ≠ '\"') ∧
    escape ['A', 'B'] = ['A', 'B'] :=
  ⟨by decide, c9_escape_identity ['A', 'B'] (by decide)⟩

/-- Claim C10: the escaping transform is injective — distinct raw
lines have distinct escaped forms, because unescaping inverts it. -/
theorem c10_escape_injective (a b : List Char) (h : escape a = escape b) :
    a = b := by
  rw [escape_eq_escapeChars, escape_eq_escapeChars] at h
  rw [← unescape_escapeChars a, ← unescape_escapeChars b, h]

/-- Witness for C10 at the concrete line `A` followed by a backslash. -/
theorem c10_escape_injective_witness :
    (['A', '\\'] : List Char) = ['A', '\\'] :=
  c10_escape_injective ['A', '\\'] ['A', '\\'] (by decide)

end Transfom
